import Mathlib

/-!
Verification of the real_time_translation pipeline.

Shallow embedding of the core data-flow functions of the repository:
`mix_audio` (src/mixer.py), the chunk accumulator of `mic_stream`
(src/audio_input.py), `translate_text` (src/translation.py),
`transcribe` (src/asr.py), the silence gate of `audio_capture_thread`
and the stage queues (src/main.py), and the worker-thread exception
protocol shared by the thread functions of src/main.py and
translate_mic.py.

Amplitude samples are modelled as rationals (the Python code uses
float32; none of the verified properties depend on rounding), int16
PCM samples as integers, and the outcome of each external collaborator
call (OpenAI chat completion, Whisper pipeline) as an explicit
`Except String _` argument: `Except.error e` models the call (or the
parsing of its response) raising an exception with message `e`.
-/

namespace RTT

/-- Clamp `x` into the interval `[lo, hi]`, as `np.clip` does. -/
def clip (lo hi x : ℚ) : ℚ := max lo (min hi x)

/-- Embedding of `mix_audio(original_chunk, tts_chunk, original_volume=0.3)`
from src/mixer.py.  `original` is the int16 PCM signal decoded from the
raw bytes (`np.frombuffer(original_chunk, dtype=np.int16)`); each sample
is normalised by `/ 32768.0` and scaled by the default
`original_volume = 0.3`; the tts signal is added at full weight; the
result has length `max(len_original, len_tts)` (missing samples are the
zeros of `np.zeros(mixed_len)`), and is clamped by
`np.clip(mixed, -1.0, 1.0)`. -/
def normSample (x : Int) : ℚ := (x : ℚ) / 32768

def mix_audio (original : List Int) (tts : List ℚ) : List ℚ :=
  let original_np : List ℚ := original.map (fun x => normSample x * (3 / 10))
  let mixed_len := max original_np.length tts.length
  (List.range mixed_len).map
    (fun i => clip (-1) 1 (original_np.getD i 0 + tts.getD i 0))

theorem clip_mem (lo hi x : ℚ) (h : lo ≤ hi) :
    lo ≤ clip lo hi x ∧ clip lo hi x ≤ hi := by
  constructor
  · exact le_max_left lo _
  · exact max_le h (min_le_left hi x)

theorem mix_audio_length (o : List Int) (t : List ℚ) :
    (mix_audio o t).length = max o.length t.length := by
  simp only [mix_audio, List.length_map, List.length_range]

theorem mix_audio_nil_left (t : List ℚ) :
    mix_audio [] t = t.map (clip (-1) 1) := by
  apply List.ext_getElem
  · simp only [mix_audio_length, List.length_map, List.length_nil,
      Nat.max_eq_right (Nat.zero_le _)]
  · intro i h1 h2
    have ht : i < t.length := by
      simpa using h2
    simp only [mix_audio, List.map_nil, List.length_nil, List.getElem_map,
      List.getElem_range, List.getD_nil, List.getD_eq_getElem t 0 ht, zero_add]

theorem mix_audio_nil_right (o : List Int) :
    mix_audio o [] = o.map (fun x => clip (-1) 1 (normSample x * (3 / 10))) := by
  apply List.ext_getElem
  · simp only [mix_audio_length, List.length_map, List.length_nil,
      Nat.max_eq_left (Nat.zero_le _)]
  · intro i h1 h2
    have ho : i < (o.map (fun x => normSample x * (3 / 10))).length := by
      simpa using h2
    simp only [mix_audio, List.getElem_map, List.getElem_range, List.getD_nil,
      List.getD_eq_getElem _ 0 ho, add_zero]

theorem mix_audio_bounded (o : List Int) (t : List ℚ) :
    ∀ y ∈ mix_audio o t, -1 ≤ y ∧ y ≤ 1 := by
  intro y hy
  simp only [mix_audio, List.mem_map, List.mem_range] at hy
  obtain ⟨i, _, rfl⟩ := hy
  exact clip_mem (-1) 1 _ (by norm_num)

/-- C1 counterexample: the claim says the mixed length is
`min(len(original), len(synthesized))` when both inputs are non-empty,
but `mix_audio` pads to the maximum: with a 2-sample original and a
1-sample tts signal the result has 2 samples, not `min 2 1 = 1`. -/
theorem C1_mix_min_length_cex :
    ¬ ((mix_audio [16384, 16384] [1/2]).length = min 2 1) := by
  decide

/-- C1 (amended): `mix_audio` weights the original at 30% and the
synthesized at full weight; the result's length is
`max(len(original), len(synthesized))` (the shorter signal zero-padded);
an empty original yields the clamped synthesized signal; an empty
synthesized signal yields the original scaled by 0.3 (clamped), so the
result is empty when both are empty; and every output sample lies in
[-1.0, 1.0]. -/
theorem C1_mix_amended (o : List Int) (t : List ℚ) :
    (mix_audio o t).length = max o.length t.length
    ∧ (o = [] → mix_audio o t = t.map (clip (-1) 1))
    ∧ (t = [] →
        mix_audio o t = o.map (fun x => clip (-1) 1 (normSample x * (3 / 10))))
    ∧ (∀ y ∈ mix_audio o t, -1 ≤ y ∧ y ≤ 1) := by
  refine ⟨mix_audio_length o t, ?_, ?_, mix_audio_bounded o t⟩
  · rintro rfl
    exact mix_audio_nil_left t
  · rintro rfl
    exact mix_audio_nil_right o

/-- C1 witness: the amended theorem evaluated at a concrete pair. -/
theorem C1_mix_amended_witness :
    (mix_audio [16384] []).length = max 1 0
    ∧ ([16384] = ([] : List Int) → mix_audio [16384] [] = [].map (clip (-1) 1))
    ∧ (([] : List ℚ) = [] →
        mix_audio [16384] [] =
          [16384].map (fun x => clip (-1) 1 (normSample x * (3 / 10))))
    ∧ (∀ y ∈ mix_audio [16384] [], -1 ≤ y ∧ y ≤ 1) :=
  C1_mix_amended [16384] []

/-- State of the chunk accumulator inside `mic_stream`
(src/audio_input.py): `buffer` is the `audio_buffer` of int16 samples,
and `segments` collects the segments sliced off and yielded so far (at
the int16 stage, before the sample-wise `/ 32768.0` normalisation of
each yielded segment). -/
structure AccState where
  buffer : List Int
  segments : List (List Int)
deriving DecidableEq

/-- One iteration of the `mic_stream` read loop: append the freshly read
chunk to the buffer; if `len(audio_buffer) >= chunk_samples`, slice
`chunk_samples` samples off the front as a new segment and keep the
remainder. -/
def mic_step (chunk_samples : ℕ) (st : AccState) (chunk : List Int) : AccState :=
  if chunk_samples ≤ (st.buffer ++ chunk).length then
    { buffer := (st.buffer ++ chunk).drop chunk_samples
      segments := st.segments ++ [(st.buffer ++ chunk).take chunk_samples] }
  else
    { buffer := st.buffer ++ chunk, segments := st.segments }

/-- The accumulator run over a whole session: the raw stream arrives as
a list of chunks (each one `stream.read(frames_per_buffer)`), starting
from the empty buffer; when the list ends the stream has ended and
`mic_stream` returns without touching the buffer again. -/
def micAccumulate (chunk_samples : ℕ) (chunks : List (List Int)) : AccState :=
  chunks.foldl (mic_step chunk_samples) ⟨[], []⟩

theorem mic_step_conserve (n : ℕ) (st : AccState) (c : List Int) :
    (mic_step n st c).segments.flatten ++ (mic_step n st c).buffer
      = st.segments.flatten ++ (st.buffer ++ c) := by
  unfold mic_step
  split
  · simp [List.flatten_append, List.append_assoc, List.take_append_drop]
  · simp

theorem mic_foldl_conserve (n : ℕ) (chunks : List (List Int)) :
    ∀ st : AccState,
      (chunks.foldl (mic_step n) st).segments.flatten
        ++ (chunks.foldl (mic_step n) st).buffer
      = st.segments.flatten ++ st.buffer ++ chunks.flatten := by
  induction chunks with
  | nil =>
    intro st
    simp
  | cons c rest ih =>
    intro st
    rw [List.foldl_cons, ih (mic_step n st c), mic_step_conserve,
      List.flatten_cons]
    simp [List.append_assoc]

theorem mic_step_lengths (n : ℕ) (st : AccState) (c : List Int)
    (h : ∀ s ∈ st.segments, s.length = n) :
    ∀ s ∈ (mic_step n st c).segments, s.length = n := by
  unfold mic_step
  split
  · next hc =>
    intro s hs
    rcases List.mem_append.1 hs with h1 | h2
    · exact h s h1
    · rw [List.mem_singleton.1 h2, List.length_take]
      exact Nat.min_eq_left hc
  · exact h

theorem mic_foldl_lengths (n : ℕ) (chunks : List (List Int)) :
    ∀ st : AccState, (∀ s ∈ st.segments, s.length = n) →
      ∀ s ∈ (chunks.foldl (mic_step n) st).segments, s.length = n := by
  induction chunks with
  | nil =>
    intro st h
    exact h
  | cons c rest ih =>
    intro st h
    exact ih (mic_step n st c) (mic_step_lengths n st c h)

/-- C2: for every sequence of raw chunks, every segment the accumulator
forwards has exactly `chunk_samples` samples (sliced FIFO off the front
of the buffer), and the concatenation of all forwarded segments followed
by the final retained buffer equals the concatenation of the full input
stream — no sample duplicated or lost. -/
theorem C2_accumulator_fifo (n : ℕ) (chunks : List (List Int)) :
    (micAccumulate n chunks).segments.flatten ++ (micAccumulate n chunks).buffer
      = chunks.flatten
    ∧ ∀ s ∈ (micAccumulate n chunks).segments, s.length = n := by
  constructor
  · simpa using mic_foldl_conserve n chunks ⟨[], []⟩
  · exact mic_foldl_lengths n chunks ⟨[], []⟩ (by simp)

/-- C2 witness: the conservation and length invariants evaluated on a
concrete stream (target 4 samples, chunks of 3): one segment [1,2,3,4]
is forwarded and [5, 6] is retained. -/
theorem C2_accumulator_fifo_witness :
    ((micAccumulate 4 [[1, 2, 3], [4, 5, 6]]).segments.flatten
        ++ (micAccumulate 4 [[1, 2, 3], [4, 5, 6]]).buffer
      = ([[1, 2, 3], [4, 5, 6]] : List (List Int)).flatten)
    ∧ ∀ s ∈ (micAccumulate 4 [[1, 2, 3], [4, 5, 6]]).segments, s.length = 4 :=
  C2_accumulator_fifo 4 [[1, 2, 3], [4, 5, 6]]

/-- C4 counterexample: feed a single 2-sample chunk to an accumulator
whose target is 4 samples and let the stream end: the partial tail
[1, 2] remains in the internal buffer and the list of forwarded
segments is empty — `mic_stream` only yields inside its read loop, and
its cleanup path closes the stream without yielding the remainder, so
the tail is not forwarded as a final segment. -/
theorem C4_partial_tail_cex :
    (micAccumulate 4 [[1, 2]]).buffer = [1, 2]
    ∧ (micAccumulate 4 [[1, 2]]).segments = [] := by
  decide

/-- C4 (amended): if the raw stream ends while the accumulator's buffer
holds fewer samples than one full chunk, that partial tail is NOT
forwarded: it stays in the buffer and is discarded when the stream
closes (here stated for a whole stream shorter than one chunk: nothing
is forwarded and the buffer holds the entire input). -/
theorem C4_partial_tail_amended (n : ℕ) (chunks : List (List Int))
    (h : chunks.flatten.length < n) :
    (micAccumulate n chunks).segments = []
    ∧ (micAccumulate n chunks).buffer = chunks.flatten := by
  have hcons : (micAccumulate n chunks).segments.flatten
      ++ (micAccumulate n chunks).buffer = chunks.flatten := by
    simpa using mic_foldl_conserve n chunks ⟨[], []⟩
  have hlen : ∀ s ∈ (micAccumulate n chunks).segments, s.length = n :=
    mic_foldl_lengths n chunks ⟨[], []⟩ (by simp)
  have hseg : (micAccumulate n chunks).segments = [] := by
    cases hs : (micAccumulate n chunks).segments with
    | nil => rfl
    | cons s rest =>
      exfalso
      have hsl : s.length = n := hlen s (hs ▸ List.mem_cons_self s rest)
      have htot : chunks.flatten.length
          = (micAccumulate n chunks).segments.flatten.length
            + (micAccumulate n chunks).buffer.length := by
        rw [← hcons, List.length_append]
      have hge : n ≤ (micAccumulate n chunks).segments.flatten.length := by
        rw [hs, List.flatten_cons, List.length_append, hsl]
        omega
      omega
  refine ⟨hseg, ?_⟩
  have hrest := hcons
  rw [hseg] at hrest
  simpa using hrest

/-- C4 witness: the amended theorem at the concrete stream [[1, 2]] with
a 4-sample target. -/
theorem C4_partial_tail_amended_witness :
    ([[1, 2]] : List (List Int)).flatten.length < 4
    ∧ ((micAccumulate 4 [[1, 2]]).segments = []
        ∧ (micAccumulate 4 [[1, 2]]).buffer = ([[1, 2]] : List (List Int)).flatten) :=
  ⟨by decide, C4_partial_tail_amended 4 [[1, 2]] (by decide)⟩

/-- A chat message: one of the role-tagged dict entries appended to
`translation_context` (src/translation.py). -/
structure Msg where
  role : String
  content : String
deriving DecidableEq

/-- Python `str.strip()` with no arguments: remove leading and trailing
whitespace.  (`russian_text.strip()` in src/translation.py and
`result["text"].strip()` in src/asr.py.) -/
def pyStrip (s : String) : String :=
  String.mk
    (((s.data.dropWhile Char.isWhitespace).reverse.dropWhile
        Char.isWhitespace).reverse)

/-- The initial `translation_context`: the single system instruction. -/
def translation_context_init : List Msg :=
  [⟨"system",
    "You are a professional translator. Translate the following Russian text into English. Return only a valid JSON object with exactly one key: \x27translation\x27, whose value is the translated text. Do not include any extra text or keys. Use any previous conversation context to maintain consistency."⟩]

/-- Embedding of `translate_text(russian_text)` (src/translation.py).
`ctx` is the current `translation_context`; `api` is the outcome of the
whole chat-completion call plus response parsing (`json.loads` and the
"translation" key access): `Except.ok t` for a successful call whose
parsed translation is `t`, `Except.error e` for any exception raised
inside the `try` block with message `e`.  Returns the new context and
the returned string.  An all-whitespace input returns `""` before
touching the context or the API (`if not russian_text.strip()`), which
is why the result for such input does not depend on `api` at all. -/
def translate_text (ctx : List Msg) (russian_text : String)
    (api : Except String String) : List Msg × String :=
  if pyStrip russian_text = "" then (ctx, "")
  else
    let ctx1 := ctx ++ [⟨"user", russian_text⟩]
    match api with
    | Except.ok translated_text =>
        (ctx1 ++ [⟨"assistant", translated_text⟩], translated_text)
    | Except.error e => (ctx1, "[Translation error: " ++ e ++ "]")

/-- Python truthiness test `if translated_text:` in `translation_thread`
(src/main.py): a non-empty result is displayed as the translation, an
empty one is logged as "No translation returned" and skipped. -/
def displays (translated_text : String) : Bool := translated_text != ""

/-- C3: a successful `translate_text` call on non-whitespace input grows
the context by exactly two entries — the user turn then the assistant
turn, in that order; an all-whitespace input leaves the context
untouched and returns the empty string, independently of the external
call outcome `api` (the universal quantification over `api` expresses
that no translator call is made on that path). -/
theorem C3_context_growth (ctx : List Msg) (text : String)
    (api : Except String String) :
    (∀ t, api = Except.ok t → ¬ pyStrip text = "" →
      (translate_text ctx text api).1
          = ctx ++ [⟨"user", text⟩, ⟨"assistant", t⟩]
        ∧ (translate_text ctx text api).1.length = ctx.length + 2
        ∧ (translate_text ctx text api).2 = t)
    ∧ (pyStrip text = "" → translate_text ctx text api = (ctx, "")) := by
  constructor
  · rintro t rfl hne
    simp [translate_text, hne]
  · intro he
    simp [translate_text, he]

/-- C3 witness: a successful call on "abc" with translation "xyz". -/
theorem C3_context_growth_witness :
    (∀ t, (Except.ok "xyz" : Except String String) = Except.ok t →
        ¬ pyStrip "abc" = "" →
      (translate_text translation_context_init "abc" (Except.ok "xyz")).1
          = translation_context_init ++ [⟨"user", "abc"⟩, ⟨"assistant", t⟩]
        ∧ (translate_text translation_context_init "abc" (Except.ok "xyz")).1.length
            = translation_context_init.length + 2
        ∧ (translate_text translation_context_init "abc" (Except.ok "xyz")).2 = t)
    ∧ (pyStrip "abc" = "" →
        translate_text translation_context_init "abc" (Except.ok "xyz")
          = (translation_context_init, "")) :=
  C3_context_growth translation_context_init "abc" (Except.ok "xyz")

/-- C9: on a failed translator invocation with non-whitespace input,
the context has grown by exactly one entry — the orphaned user turn,
with no matching assistant turn — so the context is not restored to its
pre-call state and later calls see the orphaned user message. -/
theorem C9_error_orphan_user (ctx : List Msg) (text e : String)
    (h : ¬ pyStrip text = "") :
    (translate_text ctx text (Except.error e)).1 = ctx ++ [⟨"user", text⟩]
    ∧ (translate_text ctx text (Except.error e)).1.length = ctx.length + 1 := by
  simp [translate_text, h]

/-- C9 witness: the failed call at concrete input "abc". -/
theorem C9_error_orphan_user_witness :
    ¬ pyStrip "abc" = ""
    ∧ ((translate_text translation_context_init "abc" (Except.error "boom")).1
          = translation_context_init ++ [⟨"user", "abc"⟩]
        ∧ (translate_text translation_context_init "abc" (Except.error "boom")).1.length
            = translation_context_init.length + 1) :=
  ⟨by decide, C9_error_orphan_user translation_context_init "abc" "boom" (by decide)⟩

/-- C5 counterexample: a failed translator call does not produce an
empty result for the unit: `translate_text` returns the non-empty
marker "[Translation error: boom]", and the `if translated_text:`
truthiness test of `translation_thread` accepts it, so the failed unit
is displayed downstream as if it were a translation — not logged and
skipped as empty. -/
theorem C5_error_not_empty_cex :
    (translate_text translation_context_init "hello" (Except.error "boom")).2
      = "[Translation error: boom]"
    ∧ displays
        (translate_text translation_context_init "hello" (Except.error "boom")).2
      = true := by
  constructor
  · decide
  · decide

/-- C5 (amended): a failed translator invocation is swallowed inside
`translate_text` (the worker loop continues rather than crashing), but
the failure is not treated as "no translation produced": the call
returns the non-empty marker string "[Translation error: <msg>]", which
the translation thread displays downstream as a translation. -/
theorem C5_error_marker_amended (ctx : List Msg) (text e : String)
    (h : ¬ pyStrip text = "") :
    (translate_text ctx text (Except.error e)).2
        = "[Translation error: " ++ e ++ "]"
    ∧ displays (translate_text ctx text (Except.error e)).2 = true := by
  have hval : (translate_text ctx text (Except.error e)).2
      = "[Translation error: " ++ e ++ "]" := by
    simp [translate_text, h]
  refine ⟨hval, ?_⟩
  rw [hval]
  have hne : ("[Translation error: " ++ e ++ "]" : String) ≠ "" := by
    intro hcontra
    have hlen := congrArg String.length hcontra
    rw [String.length_append, String.length_append] at hlen
    have h1 : ("[Translation error: " : String).length = 20 := rfl
    have h2 : ("]" : String).length = 1 := rfl
    have h3 : ("" : String).length = 0 := rfl
    omega
  simp [displays, hne]

/-- C5 witness: the amended theorem at the concrete failed call. -/
theorem C5_error_marker_amended_witness :
    ¬ pyStrip "hello" = ""
    ∧ ((translate_text translation_context_init "hello" (Except.error "boom")).2
          = "[Translation error: " ++ "boom" ++ "]"
        ∧ displays
            (translate_text translation_context_init "hello" (Except.error "boom")).2
          = true) :=
  ⟨by decide,
    C5_error_marker_amended translation_context_init "hello" "boom" (by decide)⟩

/-- Peak-amplitude level of a segment as the capture thread computes it:
`level = np.max(np.abs(audio_chunk)) * 100` (src/main.py line 55, same
in translate_mic.py).  The fold starts at 0, which agrees with numpy's
max of the absolute values on the non-empty chunks `mic_stream` yields,
since every absolute value is nonnegative. -/
def audioLevel (chunk : List ℚ) : ℚ :=
  (chunk.foldl (fun m x => max m |x|) 0) * 100

/-- The silence gate of `audio_capture_thread` (src/main.py lines
50-66): for each chunk yielded by the microphone stream, if
`level < 3.0` the chunk is skipped (`continue`); otherwise it is put on
`audio_queue`.  `q` is the content of `audio_queue` so far. -/
def audio_capture_gate : List (List ℚ) → List (List ℚ) → List (List ℚ)
  | q, [] => q
  | q, chunk :: rest =>
    if audioLevel chunk < 3 then audio_capture_gate q rest
    else audio_capture_gate (q ++ [chunk]) rest

theorem audio_capture_gate_eq (segs : List (List ℚ)) :
    ∀ q, audio_capture_gate q segs
      = q ++ segs.filter (fun c => decide (3 ≤ audioLevel c)) := by
  induction segs with
  | nil =>
    intro q
    simp [audio_capture_gate]
  | cons c rest ih =>
    intro q
    by_cases h : audioLevel c < 3
    · have hn : ¬ (3 ≤ audioLevel c) := not_le.mpr h
      simp [audio_capture_gate, h, hn, ih]
    · have h3 : (3 : ℚ) ≤ audioLevel c := not_lt.mp h
      simp [audio_capture_gate, h, h3, ih, List.filter_cons]

/-- C6: a segment reaches `audio_queue` (and hence the Recognition
stage) exactly when its peak-amplitude level is at or above the 3.0
silence threshold: a below-threshold segment is never enqueued, an
at-or-above one always is. -/
theorem C6_silence_gate (segs : List (List ℚ)) (c : List ℚ) :
    c ∈ audio_capture_gate [] segs ↔ c ∈ segs ∧ 3 ≤ audioLevel c := by
  rw [audio_capture_gate_eq]
  simp [List.mem_filter]

/-- C6 witness: the gate evaluated on two concrete segments, one with
level 1 (skipped) and one with level 10 (enqueued). -/
theorem C6_silence_gate_witness :
    ([(1 : ℚ)/10] ∈ audio_capture_gate [] [[1/100], [1/10]]
      ↔ [(1 : ℚ)/10] ∈ [[(1 : ℚ)/100], [1/10]] ∧ 3 ≤ audioLevel [1/10]) :=
  C6_silence_gate [[1/100], [1/10]] [1/10]

/-- Python `queue.Queue` as used for the stage queues: `maxsize` and
the current items.  `queue.Queue()` with no argument (src/main.py lines
31-34, translate_mic.py lines 33-34) leaves `maxsize = 0`, which the
queue module treats as an infinite queue. -/
structure PyQueue (α : Type) where
  maxsize : ℕ
  items : List α
deriving DecidableEq

/-- `Queue.put` blocks its caller iff the queue has a positive
`maxsize` and is full. -/
def put_blocks {α : Type} (q : PyQueue α) : Bool :=
  decide (0 < q.maxsize ∧ q.maxsize ≤ q.items.length)

/-- A `put` that does not block appends the item at the tail; a blocked
producer leaves the queue unchanged while it waits. -/
def put {α : Type} (q : PyQueue α) (x : α) : PyQueue α :=
  if 0 < q.maxsize ∧ q.maxsize ≤ q.items.length then q
  else { q with items := q.items ++ [x] }

def putAll {α : Type} (q : PyQueue α) (xs : List α) : PyQueue α :=
  xs.foldl put q

/-- `audio_queue = queue.Queue()` (src/main.py line 32). -/
def audio_queue : PyQueue (List ℚ) := ⟨0, []⟩

/-- `transcription_queue = queue.Queue()` (src/main.py line 33). -/
def transcription_queue : PyQueue String := ⟨0, []⟩

theorem put_zero {α : Type} (items : List α) (x : α) :
    put ⟨0, items⟩ x = ⟨0, items ++ [x]⟩ := by
  simp [put]

theorem putAll_zero {α : Type} (xs : List α) :
    ∀ items : List α, putAll ⟨0, items⟩ xs = ⟨0, items ++ xs⟩ := by
  induction xs with
  | nil =>
    intro items
    simp [putAll]
  | cons x rest ih =>
    intro items
    show putAll (put ⟨0, items⟩ x) rest = _
    rw [put_zero, ih (items ++ [x])]
    simp

/-- C7 counterexample: the stage queues have no finite capacity bound.
`audio_queue` is created as `queue.Queue()`, i.e. with `maxsize = 0`
(infinite): for every candidate bound `b`, a run of `b + 1` puts all go
through and leave more than `b` items queued, so no bound caps the
queue length. -/
theorem C7_bounded_queue_cex :
    ¬ ∃ b : ℕ, 0 < b ∧
      ∀ xs : List (List ℚ), (putAll audio_queue xs).items.length ≤ b := by
  rintro ⟨b, hb, hall⟩
  have hlen := hall (List.replicate (b + 1) [])
  rw [show audio_queue = (⟨0, []⟩ : PyQueue (List ℚ)) from rfl,
    putAll_zero] at hlen
  simp at hlen

/-- C7 (amended): both stage queues are created with the default
`maxsize = 0`, which Python treats as infinite: a `put` never blocks,
and after any sequence of puts the queue holds every item put — there
is no backpressure bound and the queue length grows with the number of
unconsumed puts. -/
theorem C7_unbounded_queue_amended (xs : List (List ℚ)) (ys : List String) :
    (putAll audio_queue xs).items = xs
    ∧ put_blocks (putAll audio_queue xs) = false
    ∧ (putAll transcription_queue ys).items = ys
    ∧ put_blocks (putAll transcription_queue ys) = false := by
  have hx := putAll_zero xs ([] : List (List ℚ))
  have hy := putAll_zero ys ([] : List String)
  rw [show audio_queue = (⟨0, []⟩ : PyQueue (List ℚ)) from rfl,
    show transcription_queue = (⟨0, []⟩ : PyQueue String) from rfl, hx, hy]
  simp [put_blocks]

/-- One observation of a worker loop's dequeue: `get(timeout=1.0)`
either times out (`queue.Empty`, the loop just re-checks the flag) or
yields an item. -/
inductive GetEvent (α : Type) where
  | timeout
  | item (a : α)

/-- Result of processing one dequeued item inside the loop body:
`ok none` — a falsy result, logged and not forwarded; `ok (some b)` — a
payload forwarded to the next stage; `raise msg` — an unexpected
exception escapes the loop body. -/
inductive ProcResult (β : Type) where
  | ok (out : Option β)
  | raise (msg : String)

/-- How a worker-thread function came to terminate (or not yet). -/
inductive ExitKind where
  | streamEnd
  | sawFlag
  | exceptional
deriving DecidableEq

/-- Final observable state of one worker-thread function: what it
forwarded, the state of the shared `stop_event`, and how it exited. -/
structure ThreadResult (β : Type) where
  outputs : List β
  stop_event : Bool
  exit : ExitKind

/-- The worker-thread shape shared by `transcription_thread` and
`translation_thread` in src/main.py and by the three thread functions
of translate_mic.py:

    try:
        while not stop_event.is_set():
            item = q.get(timeout=1.0)   # GetEvent.timeout on queue.Empty
            ...process, maybe forward...
    except Exception as e:
        logger.error(...)
        stop_event.set()

`process` gives the processing outcome for each dequeued item in this
run; `flag` is the current value of `stop_event`; `outs` accumulates
the items forwarded downstream.  An exhausted event list models a
session cut short while the worker is still alive (`ExitKind.streamEnd`). -/
def worker_thread {α β : Type} (process : α → ProcResult β) :
    List (GetEvent α) → Bool → List β → ThreadResult β
  | [], flag, outs => ⟨outs, flag, ExitKind.streamEnd⟩
  | e :: rest, flag, outs =>
    if flag then ⟨outs, flag, ExitKind.sawFlag⟩
    else
      match e with
      | GetEvent.timeout => worker_thread process rest flag outs
      | GetEvent.item a =>
        match process a with
        | ProcResult.ok none => worker_thread process rest flag outs
        | ProcResult.ok (some b) => worker_thread process rest flag (outs ++ [b])
        | ProcResult.raise _ => ⟨outs, true, ExitKind.exceptional⟩

/-- C8: whenever a worker-thread function terminates because an
unexpected exception escaped its loop, the `except Exception` handler
has set the shared `stop_event`, so the pipeline is never left with a
worker dead by exception while the cancellation flag is unset. -/
theorem C8_exception_sets_flag {α β : Type} (process : α → ProcResult β)
    (sched : List (GetEvent α)) (flag : Bool) (outs : List β)
    (h : (worker_thread process sched flag outs).exit = ExitKind.exceptional) :
    (worker_thread process sched flag outs).stop_event = true := by
  induction sched generalizing flag outs with
  | nil =>
    simp [worker_thread] at h
  | cons e rest ih =>
    cases flag with
    | true =>
      simp [worker_thread] at h
    | false =>
      cases e with
      | timeout =>
        simp only [worker_thread] at h ⊢
        simp only [Bool.false_eq_true, if_false] at h ⊢
        exact ih false outs h
      | item a =>
        cases hp : process a with
        | ok o =>
          cases o with
          | none =>
            simp only [worker_thread, hp] at h ⊢
            simp only [Bool.false_eq_true, if_false] at h ⊢
            exact ih false outs h
          | some b =>
            simp only [worker_thread, hp] at h ⊢
            simp only [Bool.false_eq_true, if_false] at h ⊢
            exact ih false (outs ++ [b]) h
        | raise m =>
          simp [worker_thread, hp]

/-- A processing function whose first item raises: used to exercise the
exception path of `worker_thread`. -/
def failing_process : ℕ → ProcResult ℕ :=
  fun _ => ProcResult.raise "boom"

/-- C8 witness: a concrete run in which the worker dies by exception
and the flag ends up set. -/
theorem C8_exception_sets_flag_witness :
    (worker_thread failing_process [GetEvent.item 0] false []).exit
        = ExitKind.exceptional
    ∧ (worker_thread failing_process [GetEvent.item 0] false []).stop_event
        = true :=
  ⟨by decide,
    C8_exception_sets_flag failing_process [GetEvent.item 0] false [] (by decide)⟩

/-- Embedding of `transcribe(audio_np, language="ru",
confidence_threshold=0.0)` from src/asr.py, at its default threshold
(the only way the repository calls it); the threshold is kept as an
argument.  `audio` is `none` for a `None` input, otherwise the sample
list (`audio_np is None or len(audio_np) == 0` guards the empty case).
`pipelineResult` models the body of the `try` block up to
`result["text"]`: `Except.error e` for any exception raised there (the
temp-file write, the Whisper pipeline call, the dict access) and
`Except.ok txt` for a successful recognition with raw text `txt`.  The
code then strips the text, fixes `confidence = 0.9`, and blanks the
text when `confidence < confidence_threshold`. -/
def transcribe (audio : Option (List ℚ))
    (pipelineResult : Except String String)
    (confidence_threshold : ℚ) : String × ℚ :=
  match audio with
  | none => ("", 0)
  | some samples =>
    if samples.length = 0 then ("", 0)
    else
      match pipelineResult with
      | Except.error _ => ("", 0)
      | Except.ok txt =>
        if (9 / 10 : ℚ) < confidence_threshold then ("", 9 / 10)
        else (pyStrip txt, 9 / 10)

/-- C10: `transcribe` is total on the model: a `None` or empty audio
input gives `("", 0.0)`; any exception inside the `try` block gives
`("", 0.0)`; a successful recognition (at the default threshold 0.0)
gives the stripped transcription with the constant confidence 0.9; and
for every threshold the returned confidence is 0 or 0.9, hence within
[0.0, 1.0]. -/
theorem C10_transcribe_total (audio : Option (List ℚ))
    (res : Except String String) :
    (audio = none → transcribe audio res 0 = ("", 0))
    ∧ (audio = some [] → transcribe audio res 0 = ("", 0))
    ∧ (∀ e, res = Except.error e → transcribe audio res 0 = ("", 0))
    ∧ (∀ txt samples, audio = some samples → samples ≠ [] →
        res = Except.ok txt → transcribe audio res 0 = (pyStrip txt, 9 / 10))
    ∧ (∀ t : ℚ,
        ((transcribe audio res t).2 = 0 ∨ (transcribe audio res t).2 = 9 / 10)
        ∧ 0 ≤ (transcribe audio res t).2 ∧ (transcribe audio res t).2 ≤ 1) := by
  refine ⟨?_, ?_, ?_, ?_, ?_⟩
  · rintro rfl
    rfl
  · rintro rfl
    rfl
  · rintro e rfl
    cases audio with
    | none => rfl
    | some samples =>
      by_cases hs : samples.length = 0
      · simp [transcribe, hs]
      · simp [transcribe, hs]
  · rintro txt samples rfl hne rfl
    have hs : ¬ samples.length = 0 := by
      simpa using hne
    have ht : ¬ ((9 : ℚ) / 10 < 0) := by
      norm_num
    simp [transcribe, hs, ht]
  · intro t
    cases audio with
    | none =>
      simp [transcribe]
    | some samples =>
      by_cases hs : samples.length = 0
      · simp [transcribe, hs]
      · cases res with
        | error e => simp [transcribe, hs]
        | ok txt =>
          by_cases ht : (9 / 10 : ℚ) < t
          · simp [transcribe, hs, ht]
            norm_num
          · simp [transcribe, hs, ht]
            norm_num

/-- C10 witness: a successful recognition on a 1-sample input with raw
text " hi " at the default threshold. -/
theorem C10_transcribe_total_witness :
    ((some [(1 : ℚ)/2] : Option (List ℚ)) = none →
        transcribe (some [1/2]) (Except.ok " hi ") 0 = ("", 0))
    ∧ ((some [(1 : ℚ)/2] : Option (List ℚ)) = some [] →
        transcribe (some [1/2]) (Except.ok " hi ") 0 = ("", 0))
    ∧ (∀ e, (Except.ok " hi " : Except String String) = Except.error e →
        transcribe (some [1/2]) (Except.ok " hi ") 0 = ("", 0))
    ∧ (∀ txt samples, (some [(1 : ℚ)/2] : Option (List ℚ)) = some samples →
        samples ≠ [] → (Except.ok " hi " : Except String String) = Except.ok txt →
        transcribe (some [1/2]) (Except.ok " hi ") 0 = (pyStrip txt, 9 / 10))
    ∧ (∀ t : ℚ,
        ((transcribe (some [1/2]) (Except.ok " hi ") t).2 = 0
          ∨ (transcribe (some [1/2]) (Except.ok " hi ") t).2 = 9 / 10)
        ∧ 0 ≤ (transcribe (some [1/2]) (Except.ok " hi ") t).2
        ∧ (transcribe (some [1/2]) (Except.ok " hi ") t).2 ≤ 1) :=
  C10_transcribe_total (some [1/2]) (Except.ok " hi ")

end RTT
